import Mathlib

/-!
# Verification of the graph-construction core of `flytekit/annotated/stuff.py`

This file gives a shallow embedding of the workflow-graph builder found in
`src/flytekit/annotated/stuff.py` and proves/refutes the specification claims
about it.

Modelling conventions:
* Python objects referenced by identity (`SdkNode`) live in an arena: a node is
  a `Nat` index into a `List SdkNodeM`, so "reference identity" is index
  equality.
* Python exceptions are `Except PyErr`; each `PyErr` constructor corresponds to
  one `raise` site (or builtin error) in the source.
* Unbounded Python recursion over the node graph is given an explicit fuel
  parameter; fuel exhaustion (`Option.none` / `PyErr.outOfFuel`) models
  non-termination of the source recursion.
-/

/-- Flyte literal types, the codomain of the simple-type lookup table. -/
inductive LiteralTypeM where
  | integer
  | string
  | boolean
  | float
  deriving DecidableEq, Repr

/-- Python types appearing as annotations on a task function.  `unsupported`
stands for any Python type that has no entry in the simple-type lookup table. -/
inductive PyType where
  | int
  | str
  | bool
  | float
  | unsupported (tag : Nat)
  deriving DecidableEq, Repr

/-- Modelled from the spec: `SIMPLE_TYPE_LOOKUP_TABLE` is imported from
`flytekit.annotated.type_engine`, which is not under `src/`.  Per the spec it is
an external "semantic type catalog": a partial mapping from declared Python type
to the graph's variable type, with a miss meaning the type is unsupported. -/
def SIMPLE_TYPE_LOOKUP_TABLE : PyType → Option LiteralTypeM
  | .int => some .integer
  | .str => some .string
  | .bool => some .boolean
  | .float => some .float
  | .unsupported _ => none

/-- `flytekit.models.interface.Variable`: a semantic type plus description. -/
structure VariableM where
  type : LiteralTypeM
  description : String
  deriving DecidableEq, Repr

/-- `flytekit.models.interface.TypedInterface`: named input and output
variables.  Python dicts preserve insertion order, so each mapping is an
ordered association list. -/
structure TypedInterfaceM where
  inputs : List (String × VariableM)
  outputs : List (String × VariableM)
  deriving DecidableEq, Repr

/-- One constructor per `raise` site / builtin exception reachable in the
embedded code. -/
inductive PyErr where
  /-- `raise Exception('1fkdsa39mlsda')` in `get_interface_from_task_info`. -/
  | unnamedArity
  /-- `raise Exception("Output length mismatch ...")` in
  `get_interface_from_task_info`. -/
  | outputLengthMismatch
  /-- `raise Exception("Python type ... not yet supported.")` in
  `get_variable_map`. -/
  | unsupportedPythonType (t : PyType)
  /-- builtin `KeyError` from `task_annotations['return']` when the key is
  absent. -/
  | returnKeyError
  /-- builtin `AttributeError` from `environment.copy()` when `environment` is
  `None`. -/
  | noneEnvironment
  /-- builtin `IndexError` from subscripting a too-short list. -/
  | indexOutOfRange
  /-- builtin `TypeError` from `len(None)` / subscripting `None`. -/
  | noneSubscript
  /-- builtin `KeyError` from `ppp[name]` when `name` is not an interface
  output. -/
  | mapperKeyError
  /-- `raise Exception("Can't fill in upstream when node given is itself not
  ID'ed")` in `fill_in_upstream_nodes`. -/
  | fillInMissingId
  /-- `raise Exception("nope can't be none ...")` in
  `WorkflowOutputs.__init__`. -/
  | unnameableOutput
  /-- Model artifact: the fuel bound for an unbounded source recursion was
  exhausted, i.e. the source diverges (or recurses deeper than the bound). -/
  | outOfFuel
  /-- An exception raised inside the user's authoring function body. -/
  | userError (tag : Nat)
  deriving DecidableEq, Repr

/-- A Python value sitting in a local variable of some stack frame, as
inspected by `get_earliest_promise_name`: either a `promise.NodeOutput`
(carrying the arena index of its `sdk_node` and its output variable name) or
any other value (which fails the `isinstance(v, _NodeOutput)` test). -/
inductive PyVal where
  | nodeOutput (sdk_node : Nat) (var : String)
  | other (tag : Nat)
  deriving DecidableEq, Repr

/-- One stack frame's `f_locals`, in dict (declaration) order, innermost
frame first in a `List FrameM`. -/
abbrev FrameM := List (String × PyVal)

/-- `get_earliest_promise_name` (source lines 501-523): walk the stack from the
innermost frame outward (`frame = frame.f_back`); in each frame iterate
`f_locals` in order; whenever a local is a `NodeOutput` whose `sdk_node` *is*
the given node (identity), overwrite `var_name` with that local's name; return
the final `var_name` (possibly `None`). -/
def get_earliest_promise_name (frames : List FrameM) (node_object : Nat) : Option String :=
  frames.foldl
    (fun acc fr =>
      fr.foldl
        (fun a kv =>
          match kv.2 with
          | .nodeOutput n _ => if n = node_object then some kv.1 else a
          | .other _ => a)
        acc)
    none

/-- The last local in a single frame (in declaration order) holding a
`NodeOutput` that references `node_object`, if any. -/
def frameMatch (fr : FrameM) (node_object : Nat) : Option String :=
  fr.foldl
    (fun a kv =>
      match kv.2 with
      | .nodeOutput n _ => if n = node_object then some kv.1 else a
      | .other _ => a)
    none

/-- `flytekit.models.literals.BindingData`: either a reference to an upstream
promise (`promise=NodeOutput(node, var)`) or a literal scalar. -/
inductive BindingDataM where
  | promise (sdk_node : Nat) (var : String)
  | scalar (tag : Nat)
  deriving DecidableEq, Repr

/-- `flytekit.models.literals.Binding`: destination variable name plus binding
data. -/
structure BindingM where
  var : String
  data : BindingDataM
  deriving DecidableEq, Repr

/-- `flytekit.common.nodes.SdkNode` as stored in the arena: optional textual
id (`_id`), the `metadata.name` hint (the task function's name), upstream node
references (arena indices), and the node's input bindings. -/
structure SdkNodeM where
  id : Option String
  metaName : String
  upstream_nodes : List Nat
  bindings : List BindingM
  deriving DecidableEq, Repr

/-- The arena of nodes; a node's identity is its index. -/
abbrev Arena := List SdkNodeM

/-- Read a node's `_id`; out-of-range indices have no id. -/
def getId (ar : Arena) (n : Nat) : Option String :=
  match ar[n]? with
  | some nd => nd.id
  | none => none

/-- Read a node's `metadata.name`. -/
def metaNameOf (ar : Arena) (n : Nat) : String :=
  match ar[n]? with
  | some nd => nd.metaName
  | none => ""

/-- Read a node's `upstream_nodes`. -/
def upstreamOf (ar : Arena) (n : Nat) : List Nat :=
  match ar[n]? with
  | some nd => nd.upstream_nodes
  | none => []

/-- Write a node's `_id` (mutation `n._id = v` on the arena). -/
def setId : Arena → Nat → Option String → Arena
  | [], _, _ => []
  | nd :: rest, 0, v => { nd with id := v } :: rest
  | nd :: rest, Nat.succ k, v => nd :: setId rest k v

/-- `PythonTask.__call__` lines 328-331: for each upstream node, if its `_id`
is `None`, assign it the result of `get_earliest_promise_name` (which may
itself be `None`). -/
def resolveUpstreamIds (frames : List FrameM) (ar : Arena) (ups : List Nat) : Arena :=
  ups.foldl
    (fun a n => if getId a n = none then setId a n (get_earliest_promise_name frames n) else a)
    ar

/-- `fill_in_upstream_nodes` (source lines 261-273): requires the given node to
already have an id, then for each upstream node in order, synthesizes
`id + "-anon_" + upstream.metadata.name` if the upstream id is `None`, and
recurses into the upstream node.  The source recursion is unbounded; `fuel`
bounds it here, with `PyErr.outOfFuel` marking exhaustion. -/
def fillInUpstreamNodes : Nat → Arena → Nat → Except PyErr Arena
  | 0, _, _ => .error .outOfFuel
  | Nat.succ fuel, ar, n =>
    match getId ar n with
    | none => .error .fillInMissingId
    | some nid =>
      (upstreamOf ar n).foldlM
        (fun a u =>
          let a' := if getId a u = none
            then setId a u (some (nid ++ "-anon_" ++ metaNameOf a u))
            else a
          fillInUpstreamNodes fuel a' u)
        ar

/-- The compile-mode branch of `WorkflowOutputs.__init__` (source lines
98-126): for each terminal promise's node, if its id is `None`, look it up with
`get_earliest_promise_name`, raising if that returns `None`; then run
`fill_in_upstream_nodes` from the node. -/
def workflowOutputsInit (frames : List FrameM) (fuel : Nat) (ar : Arena)
    (terminals : List Nat) : Except PyErr Arena :=
  terminals.foldlM
    (fun a n =>
      match getId a n with
      | some _ => fillInUpstreamNodes fuel a n
      | none =>
        match get_earliest_promise_name frames n with
        | none => .error .unnameableOutput
        | some nid => fillInUpstreamNodes fuel (setId a n (some nid)) n)
    ar

/-- Sequentially run a fallible function over a list, collecting the results
in order; the first failure propagates. -/
def optionTraverse {α β : Type} (f : α → Option β) : List α → Option (List β)
  | [] => some []
  | x :: xs =>
    match f x with
    | none => none
    | some y =>
      match optionTraverse f xs with
      | none => none
      | some ys => some (y :: ys)

/-- `get_all_upstream_nodes` (source lines 276-284): depth-first, returns the
direct upstream list followed by the recursively collected upstream lists, in
order, with no deduplication and no cycle detection.  The source recursion is
unbounded; `none` means the fuel bound was exhausted (the source diverges on
any input on which this returns `none` for every fuel). -/
def getAllUpstreamNodes : Nat → Arena → Nat → Option (List Nat)
  | 0, _, _ => none
  | Nat.succ fuel, ar, n =>
    match optionTraverse (fun u => getAllUpstreamNodes fuel ar u) (upstreamOf ar n) with
    | none => none
    | some rs => some (upstreamOf ar n ++ rs.flatten)

/-- The node-collection effect of the `workflow.wrapper` bindings loop (source
lines 224-227): for each terminal output in order,
`all_nodes.extend(get_all_upstream_nodes(out.sdk_node))` then
`all_nodes.append(out.sdk_node)`. -/
def collectAllNodes (fuel : Nat) (ar : Arena) (terminals : List Nat) : Option (List Nat) :=
  match optionTraverse (fun t => (getAllUpstreamNodes fuel ar t).map (· ++ [t])) terminals with
  | none => none
  | some ls => some ls.flatten

/-- Strict upstream reachability in the arena graph: `UpReach ar n m` holds
when `m` is on `n`'s transitive upstream path. -/
inductive UpReach (ar : Arena) : Nat → Nat → Prop
  | base {n m : Nat} (h : m ∈ upstreamOf ar n) : UpReach ar n m
  | step {n m k : Nat} (h : m ∈ upstreamOf ar n) (h2 : UpReach ar m k) : UpReach ar n k

/-- CPython dict insertion `m[k] = v`: if `k` is present, its value is updated
in place (position kept); otherwise `(k, v)` is appended. -/
def dictSet {β : Type} (m : List (String × β)) (k : String) (v : β) : List (String × β) :=
  if m.any (fun p => p.1 = k) then m.map (fun p => if p.1 = k then (k, v) else p)
  else m ++ [(k, v)]

/-- CPython `dict(pairs)`: left-to-right insertion with `dictSet` semantics
(first occurrence keeps its position, last value wins). -/
def pyDict {β : Type} (l : List (String × β)) : List (String × β) :=
  l.foldl (fun m kv => dictSet m kv.1 kv.2) []

/-- The loop body of `get_variable_map`: look the Python type up in
`SIMPLE_TYPE_LOOKUP_TABLE`, raising on a miss, and set
`res[k] = Variable(type=..., description=k)`. -/
def get_variable_map_step (res : List (String × VariableM)) (kv : String × PyType) :
    Except PyErr (List (String × VariableM)) :=
  match SIMPLE_TYPE_LOOKUP_TABLE kv.2 with
  | none => .error (.unsupportedPythonType kv.2)
  | some lt => .ok (dictSet res kv.1 ⟨lt, kv.1⟩)

/-- `get_variable_map` (source lines 486-498): starting from an empty dict,
run the loop body over the name/type items in order. -/
def get_variable_map (items : List (String × PyType)) :
    Except PyErr (List (String × VariableM)) :=
  items.foldlM get_variable_map_step []

/-- A task function's `return` annotation: either a single (non-tuple) type or
a tuple of types. -/
inductive RetAnn where
  | single (t : PyType)
  | tuple (ts : List PyType)
  deriving DecidableEq, Repr

/-- Source lines 460-464: a non-tuple return annotation becomes a one-element
tuple; a tuple annotation is taken as is. -/
def returnTypes : RetAnn → List PyType
  | .single t => [t]
  | .tuple ts => ts

/-- A task function's `__annotations__` dict: the non-`return` items in order,
plus the optional `return` item.  Python guarantees the keys are distinct. -/
structure TaskAnn where
  ins : List (String × PyType)
  ret : Option RetAnn
  deriving DecidableEq, Repr

/-- `get_variable_map_from_lists` (source lines 481-483):
`get_variable_map(dict(zip(variable_names, python_types)))`.  `zip` truncates
to the shorter list; `dict` collapses duplicate names. -/
def get_variable_map_from_lists (variable_names : List String) (python_types : List PyType) :
    Except PyErr (List (String × VariableM)) :=
  get_variable_map (pyDict (variable_names.zip python_types))

/-- `get_interface_from_task_info` (source lines 443-478): raise
`'1fkdsa39mlsda'` if there is no `return` annotation but output names were
declared; read the `return` annotation (builtin `KeyError` when absent);
normalize it to a tuple of return types; raise `"Output length mismatch"` when
the declared output-name count differs; then build the input and output
variable maps and the `TypedInterface`. -/
def get_interface_from_task_info (ann : TaskAnn) (output_names : List String) :
    Except PyErr TypedInterfaceM :=
  if ann.ret = none ∧ output_names ≠ [] then .error .unnamedArity
  else
    match ann.ret with
    | none => .error .returnKeyError
    | some r =>
      let return_types := returnTypes r
      if output_names.length ≠ return_types.length then .error .outputLengthMismatch
      else
        match get_variable_map ann.ins with
        | .error e => .error e
        | .ok inputs_map =>
          match get_variable_map_from_lists output_names return_types with
          | .error e => .error e
          | .ok outputs_map => .ok ⟨inputs_map, outputs_map⟩

/-- Modelled from the spec: `create_bindings_for_inputs` lives in
`flytekit.common.interface`, which is not under `src/`.  Per the spec, each
keyword argument produces one Binding for its destination name — a reference
Binding when the value is a Promise (also recording the Promise's owning node
as an upstream dependency) and a literal Binding otherwise. -/
def create_bindings_for_inputs (kwargs : List (String × PyVal)) :
    List BindingM × List Nat :=
  (kwargs.map
      (fun kv =>
        { var := kv.1
          data :=
            match kv.2 with
            | .nodeOutput n v => .promise n v
            | .other t => .scalar t }),
   kwargs.filterMap
      (fun kv =>
        match kv.2 with
        | .nodeOutput n _ => some n
        | .other _ => none))

/-- The key order used by `sorted(bindings, key=lambda b: b.var)`. -/
def varLe (a b : BindingM) : Prop := a.var ≤ b.var

instance : DecidableRel varLe := fun a b => inferInstanceAs (Decidable (a.var ≤ b.var))

instance : IsTotal BindingM varLe := ⟨fun a b => le_total a.var b.var⟩

instance : IsTrans BindingM varLe := ⟨fun _ _ _ h1 h2 => le_trans h1 h2⟩

/-- Source line 341: `sorted(bindings, key=lambda b: b.var)` applied to the
bindings computed from the keyword arguments.  Python's `sorted` is a stable
sort; `List.insertionSort` is stable as well. -/
def sortedBindings (kwargs : List (String × PyVal)) : List BindingM :=
  ((create_bindings_for_inputs kwargs).1).insertionSort varLe

/-- A `promise.NodeOutput`: owning node (arena index), output variable name,
and its sdk type (kept as the literal type; `to_flyte_literal_type` is the
identity here). -/
structure NodeOutputV where
  sdk_node : Nat
  var : String
  sdk_type : LiteralTypeM
  deriving DecidableEq, Repr

/-- `OutputParameterMapper(self.interface.outputs, sdk_node)` subscripting:
`ppp[name]` is a `NodeOutput` for the new node and output `name`, a builtin
`KeyError` when `name` is not among the interface outputs. -/
def pppLookup (ifaceOuts : List (String × VariableM)) (nodeIdx : Nat) (name : String) :
    Option NodeOutputV :=
  match ifaceOuts.lookup name with
  | some v => some ⟨nodeIdx, name, v.type⟩
  | none => none

/-- The value returned by a task-like invocation in build mode. -/
inductive TaskCallResult where
  | single (p : NodeOutputV)
  | tuple (ps : List NodeOutputV)
  deriving DecidableEq, Repr

/-- `PythonTask.__call__` lines 346-357: with more than one declared output,
return the tuple `(ppp[outputs[0]], ..., ppp[outputs[n-1]])`; otherwise return
`ppp[outputs[0]]` directly — a builtin `IndexError` when the declared-output
list is empty, and a builtin `TypeError` (`len(None)`) when it is `None`
(the `task` decorator's default). -/
def returnPromises (ifaceOuts : List (String × VariableM)) (nodeIdx : Nat)
    (outs : Option (List String)) : Except PyErr TaskCallResult :=
  match outs with
  | none => .error .noneSubscript
  | some os =>
    if os.length > 1 then
      match optionTraverse (fun name => pppLookup ifaceOuts nodeIdx name) os with
      | none => .error .mapperKeyError
      | some ps => .ok (.tuple ps)
    else
      match os[0]? with
      | none => .error .indexOutOfRange
      | some name =>
        match pppLookup ifaceOuts nodeIdx name with
        | none => .error .mapperKeyError
        | some p => .ok (.single p)

/-- The compile-mode branch of `PythonTask.__call__` (source lines 310-357),
with keyword arguments only (a positional argument raises before any of this
runs): compute bindings and upstream nodes from the kwargs, resolve missing
upstream ids from the stack, append the new node (id `None`, name hint, sorted
bindings), and return one promise per declared output. -/
def pythonTaskCall (frames : List FrameM) (ar : Arena) (taskName : String)
    (ifaceOuts : List (String × VariableM)) (outs : Option (List String))
    (kwargs : List (String × PyVal)) : Except PyErr (Arena × TaskCallResult) :=
  let bu := create_bindings_for_inputs kwargs
  let ar1 := resolveUpstreamIds frames ar bu.2
  let newIdx := ar1.length
  let ar2 := ar1 ++ [⟨none, taskName, bu.2, sortedBindings kwargs⟩]
  match returnPromises ifaceOuts newIdx outs with
  | .error e => .error e
  | .ok r => .ok (ar2, r)

/-- The output-binding loop of `workflow.wrapper` (source lines 214-222): for
`i, out` in `enumerate(workflow_outputs.args)`, build
`Binding(var=outputs[i], binding=BindingData(promise=out))`.  `outputs[i]`
raises a builtin `TypeError` when `outputs` is `None` and a builtin
`IndexError` when `i` is out of range. -/
def bindingsLoop : Option (List String) → Nat → List NodeOutputV → Except PyErr (List BindingM)
  | _, _, [] => .ok []
  | none, _, _ :: _ => .error .noneSubscript
  | some os, i, out :: rest =>
    match os[i]? with
    | none => .error .indexOutOfRange
    | some name =>
      match bindingsLoop (some os) (i + 1) rest with
      | .error e => .error e
      | .ok bs => .ok (⟨name, .promise out.sdk_node out.var⟩ :: bs)

/-- The finalized workflow object produced by `workflow.wrapper` (the parts of
`SdkWorkflow` the claims are about): the typed interface, the output bindings,
and the collected node list. -/
structure WorkflowInstanceM where
  interface : TypedInterfaceM
  output_bindings : List BindingM
  nodes : List Nat
  deriving DecidableEq, Repr

/-- `workflow.wrapper` (source lines 157-253), modelled over the process-wide
flag `CONFIGURATION_SINGLETON.x` (the second component of the result is the
flag's value after the call):
* `old_setting = x; x = 1` (lines 158-159);
* build the input variable map (line 165; an unsupported input type raises
  here, propagating with the flag still `1`);
* run the authoring function (line 187; `fnResult` is its outcome, and `ar` the
  node arena after it ran — a raise propagates with the flag still `1`);
* lines 203-208: `outputs_map = {}` followed by a loop whose body
  `outputs[i]: Variable(...)` is an annotation statement in function scope —
  it assigns nothing, so `outputs_map` stays empty;
* line 211: build the `TypedInterface` from `inputs_map` and `outputs_map`;
* lines 214-227: build one output binding per terminal promise and collect all
  nodes by upstream traversal (any raise, or divergence of the unbounded
  traversal, leaves the flag at `1`);
* line 252: `x = old_setting`, executed only on this straight-line success
  path — there is no `try`/`finally`. -/
def workflow_wrapper (fuel : Nat) (inputs : List (String × PyType))
    (outputs : Option (List String)) (fnResult : Except PyErr (List NodeOutputV))
    (ar : Arena) (x0 : Nat) : Except PyErr WorkflowInstanceM × Nat :=
  let old_setting := x0
  -- CONFIGURATION_SINGLETON.x = 1
  match get_variable_map inputs with
  | .error e => (.error e, 1)
  | .ok inputs_map =>
    match fnResult with
    | .error e => (.error e, 1)
    | .ok args =>
      let outputs_map : List (String × VariableM) := []
      let interface_model : TypedInterfaceM := ⟨inputs_map, outputs_map⟩
      match bindingsLoop outputs 0 args with
      | .error e => (.error e, 1)
      | .ok bindings =>
        match collectAllNodes fuel ar (args.map (fun o => o.sdk_node)) with
        | none => (.error .outOfFuel, 1)
        | some all_nodes =>
          (.ok ⟨interface_model, bindings, all_nodes⟩, old_setting)

/-- The container model: the fields of `flytekit.models.task.Container` the
claims observe.  Resource requests/limits and the command line are opaque
pass-through data supplied by external configuration. -/
structure ContainerM where
  env : List (String × String)
  deriving DecidableEq, Repr

/-- `_get_container_definition` (source lines 528-647), environment handling
only (resource plumbing is opaque pass-through): `env = environment.copy()` —
a builtin `AttributeError` when `environment` is left at its `None` default —
then `env.update({...internal settings...})`; the `Container` is built with
`env=environment` (the original mapping, not the updated copy). -/
def _get_container_definition (environment : Option (List (String × String))) :
    Except PyErr ContainerM :=
  match environment with
  | none => .error .noneEnvironment
  | some environment' =>
    let env := environment'
    let env := dictSet (dictSet env "FLYTE_INTERNAL_CONFIGURATION_PATH" "cfg") "FLYTE_INTERNAL_IMAGE" "img"
    let _ := env
    .ok { env := environment' }

/-- The task object built by the `task` decorator: the parts the claims are
about. -/
structure PythonTaskM where
  interface : TypedInterfaceM
  outputs : Option (List String)
  container : ContainerM
  deriving DecidableEq, Repr

/-- `task(...)(fn)` (source lines 375-440): build the metadata (pass-through),
the interface via `get_interface_from_task_info(fn.__annotations__,
outputs or [])`, the `SdkTask` whose container is
`_get_container_definition(..., environment=environment)`, and finally the
`PythonTask` instance holding the raw `outputs` (possibly `None`). -/
def task_decorator (outputs : Option (List String))
    (environment : Option (List (String × String))) (ann : TaskAnn) :
    Except PyErr PythonTaskM :=
  match get_interface_from_task_info ann (outputs.getD []) with
  | .error e => .error e
  | .ok task_interface =>
    match _get_container_definition environment with
    | .error e => .error e
    | .ok container => .ok ⟨task_interface, outputs, container⟩

/-- Concrete 2-node arena: node 0 (`a`, no upstream), node 1 (`b`, upstream
`[0]`), both already identified. -/
def demoArena : Arena :=
  [⟨some "a", "t1", [], []⟩, ⟨some "b", "t2", [0], []⟩]

/-- Concrete diamond arena: node 3 depends on nodes 1 and 2, both of which
depend on node 0. -/
def diamondArena : Arena :=
  [⟨some "a", "t1", [], []⟩, ⟨some "b", "t2", [0], []⟩, ⟨some "c", "t3", [0], []⟩,
   ⟨some "d", "t4", [1, 2], []⟩]

/-- Concrete cyclic arena: node 0 lists itself as upstream. -/
def cycArena : Arena := [⟨some "n", "t", [0], []⟩]

/-- Specification-style description of what `get_earliest_promise_name`
computes: the *last* matching local found scanning frames innermost to
outermost and within a frame in declaration order — i.e. the outermost frame
containing a match wins, and within that frame the latest matching declaration
wins. -/
def lastPromiseName : List FrameM → Nat → Option String
  | [], _ => none
  | fr :: rest, node => (lastPromiseName rest node).or (frameMatch fr node)

lemma frameMatch_fold (node : Nat) (fr : FrameM) :
    ∀ acc : Option String,
      fr.foldl
        (fun a kv =>
          match kv.2 with
          | .nodeOutput n _ => if n = node then some kv.1 else a
          | .other _ => a)
        acc = (frameMatch fr node).or acc := by
  induction fr with
  | nil => intro acc; simp [frameMatch]
  | cons kv rest ih =>
    intro acc
    have hstep : ∀ b : Option String,
        (match kv.2 with
          | PyVal.nodeOutput n _ => if n = node then some kv.1 else b
          | PyVal.other _ => b)
        = (match kv.2 with
            | PyVal.nodeOutput n _ => if n = node then some kv.1 else none
            | PyVal.other _ => none).or b := by
      intro b
      rcases kv with ⟨k, v⟩
      cases v with
      | nodeOutput n w =>
        by_cases hn : n = node <;> simp [hn, Option.or]
      | other t => simp [Option.or]
    have hfm : frameMatch (kv :: rest) node
        = (frameMatch rest node).or
          (match kv.2 with
            | PyVal.nodeOutput n _ => if n = node then some kv.1 else none
            | PyVal.other _ => none) := by
      show List.foldl
          (fun a kv =>
            match kv.2 with
            | PyVal.nodeOutput n _ => if n = node then some kv.1 else a
            | PyVal.other _ => a)
          none (kv :: rest) = _
      rw [List.foldl_cons, ih, hstep, Option.or_none]
    rw [List.foldl_cons, ih, hstep, hfm, Option.or_assoc]

lemma gepn_go (node : Nat) :
    ∀ (frames : List FrameM) (acc : Option String),
      frames.foldl
        (fun acc fr =>
          fr.foldl
            (fun a kv =>
              match kv.2 with
              | .nodeOutput n _ => if n = node then some kv.1 else a
              | .other _ => a)
            acc)
        acc = (lastPromiseName frames node).or acc := by
  intro frames
  induction frames with
  | nil => intro acc; simp [lastPromiseName]
  | cons fr rest ih =>
    intro acc
    rw [List.foldl_cons, frameMatch_fold, ih]
    show (lastPromiseName rest node).or ((frameMatch fr node).or acc)
      = (lastPromiseName (fr :: rest) node).or acc
    rw [lastPromiseName, Option.or_assoc]

/-- C1: the claim predicts the FIRST match (innermost scope, declaration
order) becomes the identifier; the code keeps overwriting while walking
outward, so here — where the same node is bound to `a` in the innermost frame
and to `b` in the outer frame — it returns `"b"`, not `"a"`. -/
theorem gepn_innermost_first_counterexample :
    get_earliest_promise_name
        [[("a", PyVal.nodeOutput 0 "o")], [("b", PyVal.nodeOutput 0 "o")]] 0
      = some "b" ∧ ("b" : String) ≠ "a" := by
  constructor
  · rfl
  · decide

/-- C1 (amended): lexical-name discovery returns the LAST variable name found
while scanning scopes from innermost to outermost and, within a scope, in
declaration order, whose value is a Promise referencing the node by identity —
so when a node is bound in several nested scopes, the outermost binding's name
(and within it the latest declaration) is returned. -/
theorem gepn_eq_lastPromiseName (frames : List FrameM) (node : Nat) :
    get_earliest_promise_name frames node = lastPromiseName frames node := by
  unfold get_earliest_promise_name
  rw [gepn_go, Option.or_none]

lemma wrapper_cases (fuel : Nat) (inputs : List (String × PyType))
    (outputs : Option (List String)) (fnResult : Except PyErr (List NodeOutputV))
    (ar : Arena) (x0 : Nat) :
    (∃ inst, workflow_wrapper fuel inputs outputs fnResult ar x0 = (.ok inst, x0))
    ∨ (∃ e, workflow_wrapper fuel inputs outputs fnResult ar x0 = (.error e, 1)) := by
  unfold workflow_wrapper
  repeat' split
  all_goals first
    | exact Or.inl ⟨_, rfl⟩
    | exact Or.inr ⟨_, rfl⟩

/-- C2: counterexample — the claim says the flag equals its prior value after
any call, including when the authoring function raises; here the prior value is
`0`, the authoring function raises, the exception propagates, and the flag is
left at `1`. -/
theorem wrapper_flag_not_restored_on_raise :
    workflow_wrapper 5 [] none (.error (.userError 7)) [] 0
      = (.error (.userError 7), 1) ∧ (1 : Nat) ≠ 0 := by
  exact ⟨rfl, by decide⟩

/-- C2 (amended): the process-wide build-mode flag is saved before the
authoring function runs and restored to its prior value only on the
normal-return path of `workflow.wrapper`; there is no scoped release, so on
every raising path — including an exception from the authoring function's body
— the wrapper propagates the exception with the flag left at `1`. -/
theorem wrapper_flag_restoration (fuel : Nat) (inputs : List (String × PyType))
    (outputs : Option (List String)) (fnResult : Except PyErr (List NodeOutputV))
    (ar : Arena) (x0 : Nat) :
    (∀ inst, (workflow_wrapper fuel inputs outputs fnResult ar x0).1 = .ok inst →
      (workflow_wrapper fuel inputs outputs fnResult ar x0).2 = x0)
    ∧ (∀ e, (workflow_wrapper fuel inputs outputs fnResult ar x0).1 = .error e →
      (workflow_wrapper fuel inputs outputs fnResult ar x0).2 = 1) := by
  rcases wrapper_cases fuel inputs outputs fnResult ar x0 with ⟨inst, hw⟩ | ⟨e, hw⟩
  · constructor
    · intro _ _; rw [hw]
    · intro e' h; rw [hw] at h; simp at h
  · constructor
    · intro inst' h; rw [hw] at h; simp at h
    · intro _ _; rw [hw]

/-- C2 witness: a concrete normal return restores the flag to `0`, and a
concrete raising run leaves it at `1`. -/
theorem wrapper_flag_restoration_witness :
    (workflow_wrapper 5 [] none (.ok []) [] 0).2 = 0
    ∧ (workflow_wrapper 5 [] none (.error (.userError 7)) [] 0).2 = 1 :=
  ⟨(wrapper_flag_restoration 5 [] none (.ok []) [] 0).1 ⟨⟨[], []⟩, [], []⟩ rfl,
   (wrapper_flag_restoration 5 [] none (.error (.userError 7)) [] 0).2 (.userError 7) rfl⟩

lemma cycArena_getAllUpstream_none : ∀ fuel, getAllUpstreamNodes fuel cycArena 0 = none := by
  intro fuel
  induction fuel with
  | zero => rfl
  | succ fuel ih =>
    show (match optionTraverse (fun u => getAllUpstreamNodes fuel cycArena u)
        (upstreamOf cycArena 0) with
      | none => none
      | some rs => some (upstreamOf cycArena 0 ++ rs.flatten)) = none
    have hup : upstreamOf cycArena 0 = [0] := rfl
    rw [hup]
    simp [optionTraverse, ih]

/-- C3: counterexample — on the one-node cycle `cycArena` the upstream
traversal neither terminates nor raises any error: for every recursion bound
it is still recursing (it diverges), so it never detects the cycle and never
fails with a `CyclicGraphError` (the code has no such detection at all). -/
theorem getAllUpstream_cycle_counterexample :
    ¬ ∃ (fuel : Nat) (res : List Nat), getAllUpstreamNodes fuel cycArena 0 = some res := by
  rintro ⟨fuel, res, h⟩
  rw [cycArena_getAllUpstream_none] at h
  cases h

lemma optionTraverse_isSome {α β : Type} (f : α → Option β) :
    ∀ l : List α, (∀ x ∈ l, (f x).isSome) → (optionTraverse f l).isSome := by
  intro l
  induction l with
  | nil => intro _; simp [optionTraverse]
  | cons x xs ih =>
    intro h
    obtain ⟨y, hy⟩ := Option.isSome_iff_exists.mp (h x (by simp))
    obtain ⟨ys, hys⟩ := Option.isSome_iff_exists.mp (ih (fun z hz => h z (by simp [hz])))
    simp [optionTraverse, hy, hys]

/-- C3 (amended): the depth-first upstream traversal has no cycle detection
and no visiting-set, and raises no `CyclicGraphError`; on a cyclic graph it
diverges (see the counterexample), while on acyclic inputs — witnessed by a
rank function strictly decreasing along upstream edges — it terminates
normally once the recursion bound exceeds the start node's rank. -/
theorem getAllUpstream_terminates_acyclic (ar : Arena) (rank : Nat → Nat) :
    ∀ (fuel n : Nat), (∀ a b, b ∈ upstreamOf ar a → rank b < rank a) → rank n < fuel →
    (getAllUpstreamNodes fuel ar n).isSome := by
  intro fuel
  induction fuel with
  | zero => intro n _ h; omega
  | succ fuel ih =>
    intro n hrank hf
    show (match optionTraverse (fun u => getAllUpstreamNodes fuel ar u) (upstreamOf ar n) with
      | none => none
      | some rs => some (upstreamOf ar n ++ rs.flatten)).isSome
    have hm : (optionTraverse (fun u => getAllUpstreamNodes fuel ar u) (upstreamOf ar n)).isSome :=
      optionTraverse_isSome _ _ (fun b hb => ih b hrank (by
        have := hrank n b hb
        omega))
    obtain ⟨rs, hrs⟩ := Option.isSome_iff_exists.mp hm
    rw [hrs]
    rfl

/-- C3 witness: on the concrete acyclic two-node arena, with the identity rank
function, the traversal from node 1 terminates. -/
theorem getAllUpstream_terminates_acyclic_witness :
    (getAllUpstreamNodes 5 demoArena 1).isSome :=
  getAllUpstream_terminates_acyclic demoArena (fun k => k) 5 1
    (by
      intro a b hb
      match a with
      | 0 => simp [upstreamOf, demoArena] at hb
      | 1 =>
        simp [upstreamOf, demoArena] at hb
        subst hb
        show (0 : Nat) < 1
        decide
      | (k + 2) => simp [upstreamOf, demoArena] at hb)
    (by
      show (1 : Nat) < 5
      decide)

lemma optionTraverse_mem {α β : Type} (f : α → Option β) :
    ∀ (l : List α) (rs : List β), optionTraverse f l = some rs →
      ∀ x ∈ l, ∃ y, f x = some y ∧ y ∈ rs := by
  intro l
  induction l with
  | nil => intro rs h x hx; simp at hx
  | cons a as ih =>
    intro rs h x hx
    rw [optionTraverse] at h
    cases hfa : f a with
    | none => rw [hfa] at h; cases h
    | some y =>
      rw [hfa] at h
      cases hrest : optionTraverse f as with
      | none => rw [hrest] at h; cases h
      | some ys =>
        rw [hrest] at h
        simp at h
        subst h
        rcases List.mem_cons.mp hx with rfl | hx2
        · exact ⟨y, hfa, by simp⟩
        · obtain ⟨y2, hy2, hmem⟩ := ih ys hrest x hx2
          exact ⟨y2, hy2, by simp [hmem]⟩

lemma getAllUpstream_mem_of_reach (ar : Arena) {t m : Nat} (h : UpReach ar t m) :
    ∀ (fuel : Nat) (l : List Nat), getAllUpstreamNodes fuel ar t = some l → m ∈ l := by
  induction h with
  | base hmem =>
    intro fuel l hl
    cases fuel with
    | zero => cases hl
    | succ fuel =>
      rw [getAllUpstreamNodes] at hl
      cases htr : optionTraverse (fun u => getAllUpstreamNodes fuel ar u) (upstreamOf ar _) with
      | none => rw [htr] at hl; cases hl
      | some rs =>
        rw [htr] at hl
        simp at hl
        subst hl
        simp [hmem]
  | step hmem hre ih =>
    intro fuel l hl
    cases fuel with
    | zero => cases hl
    | succ fuel =>
      rw [getAllUpstreamNodes] at hl
      cases htr : optionTraverse (fun u => getAllUpstreamNodes fuel ar u) (upstreamOf ar _) with
      | none => rw [htr] at hl; cases hl
      | some rs =>
        rw [htr] at hl
        simp at hl
        subst hl
        obtain ⟨lc, hlc, hlcmem⟩ := optionTraverse_mem _ _ rs htr _ hmem
        have hi := ih fuel lc hlc
        exact List.mem_append.mpr (Or.inr (List.mem_flatten.mpr ⟨lc, hlcmem, hi⟩))

/-- C5: counterexample — in the diamond graph (node 3 depends on 1 and 2, both
depending on 0), the node list collected by `workflow.wrapper` contains node 0
twice: duplicates along multiple upstream paths are NOT coalesced, so the
collected set does not contain each reachable node exactly once. -/
theorem collectAllNodes_duplicates_counterexample :
    collectAllNodes 10 diamondArena [3] = some [1, 2, 0, 0, 3]
    ∧ ([1, 2, 0, 0, 3] : List Nat).count 0 = 2 := by
  exact ⟨rfl, by decide⟩

/-- C5 (amended): the node list collected by upstream traversal from every
terminal node is complete — it contains every terminal and every node
transitively upstream of a terminal — but it is a plain concatenation with no
deduplication, so a node reachable along several paths (or from several
terminals) appears once per visit rather than exactly once. -/
theorem collectAllNodes_complete (fuel : Nat) (ar : Arena) (ts : List Nat) (l : List Nat)
    (h : collectAllNodes fuel ar ts = some l) (t : Nat) (ht : t ∈ ts) :
    t ∈ l ∧ ∀ m, UpReach ar t m → m ∈ l := by
  unfold collectAllNodes at h
  cases htr : optionTraverse (fun t => (getAllUpstreamNodes fuel ar t).map (· ++ [t])) ts with
  | none => rw [htr] at h; cases h
  | some ls =>
    rw [htr] at h
    simp at h
    subst h
    obtain ⟨lt', hlt', hmem⟩ := optionTraverse_mem _ ts ls htr t ht
    cases hg : getAllUpstreamNodes fuel ar t with
    | none => rw [hg] at hlt'; cases hlt'
    | some g =>
      rw [hg] at hlt'
      simp at hlt'
      constructor
      · have hin : t ∈ lt' := by rw [← hlt']; simp
        exact List.mem_flatten.mpr ⟨lt', hmem, hin⟩
      · intro m hre
        have hm : m ∈ g := getAllUpstream_mem_of_reach ar hre fuel g hg
        have hin : m ∈ lt' := by rw [← hlt']; simp [hm]
        exact List.mem_flatten.mpr ⟨lt', hmem, hin⟩

/-- C5 witness: in the diamond graph, the terminal 3 and the doubly-reachable
node 0 are both in the concretely collected list. -/
theorem collectAllNodes_complete_witness :
    (3 : Nat) ∈ [1, 2, 0, 0, 3] ∧ (0 : Nat) ∈ [1, 2, 0, 0, 3] :=
  ⟨(collectAllNodes_complete 10 diamondArena [3] [1, 2, 0, 0, 3] rfl 3 (by decide)).1,
   (collectAllNodes_complete 10 diamondArena [3] [1, 2, 0, 0, 3] rfl 3 (by decide)).2 0
     (UpReach.step (m := 1) (by decide) (UpReach.base (by decide)))⟩

lemma pppLookup_traverse (ifaceOuts : List (String × VariableM)) (nodeIdx : Nat) :
    ∀ os : List String, (∀ name ∈ os, (ifaceOuts.lookup name).isSome) →
      ∃ ps, optionTraverse (fun name => pppLookup ifaceOuts nodeIdx name) os = some ps
        ∧ ps.map (fun p => p.var) = os ∧ ∀ p ∈ ps, p.sdk_node = nodeIdx := by
  intro os
  induction os with
  | nil => intro _; exact ⟨[], rfl, rfl, by simp⟩
  | cons a as ih =>
    intro h
    obtain ⟨v, hv⟩ := Option.isSome_iff_exists.mp (h a (by simp))
    obtain ⟨ps, hps, hmap, hnode⟩ := ih (fun z hz => h z (by simp [hz]))
    refine ⟨⟨nodeIdx, a, v.type⟩ :: ps, ?_, ?_, ?_⟩
    · have hpa : pppLookup ifaceOuts nodeIdx a = some ⟨nodeIdx, a, v.type⟩ := by
        unfold pppLookup
        rw [hv]
      rw [optionTraverse, hpa, hps]
    · simp [hmap]
    · intro p hp
      rcases List.mem_cons.mp hp with rfl | hp2
      · rfl
      · exact hnode p hp2

/-- C4: counterexample — with zero declared outputs the build-mode invocation
does not return an empty result: it fails, with an `IndexError` on
`self._outputs[0]` when the declared-output list is empty, and with a
`TypeError` on `len(None)` when it was left at the decorator's `None`
default. -/
theorem returnPromises_zero_outputs_counterexample :
    returnPromises [] 0 (some []) = .error .indexOutOfRange
    ∧ returnPromises [] 0 none = .error .noneSubscript := ⟨rfl, rfl⟩

/-- C4 (amended): a build-mode task invocation returns one Promise per
declared output name — a tuple in declared order for two or more outputs, and
the single Promise directly for exactly one output — but for zero declared
outputs it FAILS (IndexError) instead of returning an empty result. -/
theorem returnPromises_shape (ifaceOuts : List (String × VariableM)) (nodeIdx : Nat)
    (os : List String) (hall : ∀ name ∈ os, (ifaceOuts.lookup name).isSome) :
    (2 ≤ os.length →
      ∃ ps, returnPromises ifaceOuts nodeIdx (some os) = .ok (.tuple ps)
        ∧ ps.map (fun p => p.var) = os ∧ ∀ p ∈ ps, p.sdk_node = nodeIdx)
    ∧ (∀ name, os = [name] →
      ∃ p, returnPromises ifaceOuts nodeIdx (some os) = .ok (.single p)
        ∧ p.var = name ∧ p.sdk_node = nodeIdx)
    ∧ (os = [] → returnPromises ifaceOuts nodeIdx (some os) = .error .indexOutOfRange) := by
  refine ⟨?_, ?_, ?_⟩
  · intro hlen
    obtain ⟨ps, hps, hmap, hnode⟩ := pppLookup_traverse ifaceOuts nodeIdx os hall
    refine ⟨ps, ?_, hmap, hnode⟩
    simp only [returnPromises]
    rw [if_pos (show os.length > 1 by omega), hps]
  · intro name hn
    subst hn
    obtain ⟨v, hv⟩ := Option.isSome_iff_exists.mp (hall name (by simp))
    refine ⟨⟨nodeIdx, name, v.type⟩, ?_, rfl, rfl⟩
    have hpa : pppLookup ifaceOuts nodeIdx name = some ⟨nodeIdx, name, v.type⟩ := by
      unfold pppLookup
      rw [hv]
    simp only [returnPromises]
    rw [if_neg (by simp), show ([name] : List String)[0]? = some name from rfl]
    show (match pppLookup ifaceOuts nodeIdx name with
      | none => Except.error PyErr.mapperKeyError
      | some p => Except.ok (TaskCallResult.single p)) =
      Except.ok (TaskCallResult.single ⟨nodeIdx, name, v.type⟩)
    rw [hpa]
  · intro hn
    subst hn
    rfl

/-- C4 witness: two declared outputs yield a tuple of two promises on the new
node, in declared order. -/
theorem returnPromises_shape_witness :
    ∃ ps, returnPromises [("y", ⟨.integer, "y"⟩), ("z", ⟨.string, "z"⟩)] 5
        (some ["y", "z"]) = .ok (.tuple ps)
      ∧ ps.map (fun p => p.var) = ["y", "z"] ∧ ∀ p ∈ ps, p.sdk_node = 5 :=
  (returnPromises_shape [("y", ⟨.integer, "y"⟩), ("z", ⟨.string, "z"⟩)] 5 ["y", "z"]
    (by decide)).1 (by decide)

lemma bindingsLoop_length :
    ∀ (args : List NodeOutputV) (outputs : Option (List String)) (i : Nat) (bs : List BindingM),
      bindingsLoop outputs i args = .ok bs → bs.length = args.length := by
  intro args
  induction args with
  | nil =>
    intro outputs i bs h
    cases outputs with
    | none =>
      simp [bindingsLoop] at h
      subst h
      rfl
    | some os =>
      simp [bindingsLoop] at h
      subst h
      rfl
  | cons out rest ih =>
    intro outputs i bs h
    cases outputs with
    | none => simp [bindingsLoop] at h
    | some os =>
      rw [bindingsLoop] at h
      cases hoi : os[i]? with
      | none => rw [hoi] at h; cases h
      | some name =>
        rw [hoi] at h
        cases hrest : bindingsLoop (some os) (i + 1) rest with
        | error e => rw [hrest] at h; cases h
        | ok bs' =>
          rw [hrest] at h
          simp at h
          subst h
          have := ih (some os) (i + 1) bs' hrest
          simp [this]

/-- C6: the finalized workflow's `TypedInterface` always has an empty outputs
mapping — the loop meant to populate `outputs_map` executes an annotation
statement (`outputs[i]: Variable(...)`), which in function scope assigns
nothing — while one output Binding per terminal Promise is still built. -/
theorem wrapper_interface_outputs_always_empty (fuel : Nat)
    (inputs : List (String × PyType)) (outputs : Option (List String))
    (args : List NodeOutputV) (ar : Arena) (x0 : Nat)
    (inst : WorkflowInstanceM) (x' : Nat)
    (h : workflow_wrapper fuel inputs outputs (.ok args) ar x0 = (.ok inst, x')) :
    inst.interface.outputs = [] ∧ inst.output_bindings.length = args.length := by
  unfold workflow_wrapper at h
  cases him : get_variable_map inputs with
  | error e =>
    rw [him] at h
    dsimp only at h
    simp at h
  | ok im =>
    rw [him] at h
    dsimp only at h
    cases hbl : bindingsLoop outputs 0 args with
    | error e =>
      rw [hbl] at h
      dsimp only at h
      simp at h
    | ok bs =>
      rw [hbl] at h
      dsimp only at h
      cases hcn : collectAllNodes fuel ar (args.map (fun o => o.sdk_node)) with
      | none =>
        rw [hcn] at h
        dsimp only at h
        simp at h
      | some ns =>
        rw [hcn] at h
        dsimp only at h
        have h1 := congrArg Prod.fst h
        simp at h1
        constructor
        · rw [← h1]
        · rw [← h1]
          exact bindingsLoop_length args outputs 0 bs hbl

/-- C6 witness: a concrete run with one declared output name and one terminal
promise yields an interface with empty outputs yet one output binding. -/
theorem wrapper_interface_outputs_always_empty_witness :
    (⟨⟨[], []⟩, [⟨"o1", .promise 1 "out"⟩], [0, 1]⟩ :
        WorkflowInstanceM).interface.outputs = []
    ∧ (⟨⟨[], []⟩, [⟨"o1", .promise 1 "out"⟩], [0, 1]⟩ :
        WorkflowInstanceM).output_bindings.length = [(⟨1, "out", .integer⟩ : NodeOutputV)].length :=
  wrapper_interface_outputs_always_empty 5 [] (some ["o1"]) [⟨1, "out", .integer⟩]
    demoArena 0 ⟨⟨[], []⟩, [⟨"o1", .promise 1 "out"⟩], [0, 1]⟩ 0 rfl

lemma setId_getElem? : ∀ (ar : Arena) (n m : Nat) (v : Option String),
    (setId ar n v)[m]? = if m = n then (ar[m]?).map (fun nd => { nd with id := v })
      else ar[m]? := by
  intro ar
  induction ar with
  | nil => intro n m v; simp [setId]
  | cons nd rest ih =>
    intro n m v
    cases n with
    | zero =>
      cases m with
      | zero => simp [setId]
      | succ k => simp [setId]
    | succ j =>
      cases m with
      | zero => simp [setId]
      | succ k => simp [setId, ih]

lemma getId_setId_of_ne (ar : Arena) (n m : Nat) (v : Option String) (h : m ≠ n) :
    getId (setId ar n v) m = getId ar m := by
  unfold getId
  rw [setId_getElem?, if_neg h]

lemma getId_preserved_setId (ar : Arena) (n m : Nat) (v : Option String) (s : String)
    (hm : getId ar m = some s) (hn : getId ar n = none) :
    getId (setId ar n v) m = some s := by
  have hne : m ≠ n := by
    intro he
    rw [he, hn] at hm
    cases hm
  rw [getId_setId_of_ne ar n m v hne, hm]

lemma resolveUpstreamIds_preserves (frames : List FrameM) :
    ∀ (ups : List Nat) (ar : Arena) (m : Nat) (s : String),
      getId ar m = some s → getId (resolveUpstreamIds frames ar ups) m = some s := by
  intro ups
  induction ups with
  | nil => intro ar m s hm; exact hm
  | cons u rest ih =>
    intro ar m s hm
    show getId (List.foldl _ _ (u :: rest)) m = some s
    rw [List.foldl_cons]
    by_cases hu : getId ar u = none
    · rw [if_pos hu]
      exact ih (setId ar u (get_earliest_promise_name frames u)) m s
        (getId_preserved_setId ar u m _ s hm hu)
    · rw [if_neg hu]
      exact ih ar m s hm

lemma fillIn_preserves :
    ∀ (fuel : Nat) (ar : Arena) (n : Nat) (ar' : Arena),
      fillInUpstreamNodes fuel ar n = .ok ar' →
      ∀ m s, getId ar m = some s → getId ar' m = some s := by
  intro fuel
  induction fuel with
  | zero => intro ar n ar' h; cases h
  | succ fuel ih =>
    intro ar n ar' h m s hm
    rw [fillInUpstreamNodes] at h
    cases hid : getId ar n with
    | none => rw [hid] at h; cases h
    | some nid =>
      rw [hid] at h
      dsimp only at h
      have aux : ∀ (l : List Nat) (a a' : Arena),
          (l.foldlM (fun a u =>
            fillInUpstreamNodes fuel
              (if getId a u = none then setId a u (some (nid ++ "-anon_" ++ metaNameOf a u))
               else a)
              u) a) = .ok a' →
          ∀ m2 s2, getId a m2 = some s2 → getId a' m2 = some s2 := by
        intro l
        induction l with
        | nil =>
          intro a a' hfold m2 s2 hm2
          simp [List.foldlM, pure, Except.pure] at hfold
          subst hfold
          exact hm2
        | cons u rest ihl =>
          intro a a' hfold m2 s2 hm2
          rw [List.foldlM_cons] at hfold
          cases hstep : fillInUpstreamNodes fuel
              (if getId a u = none then setId a u (some (nid ++ "-anon_" ++ metaNameOf a u))
               else a) u with
          | error e =>
            rw [hstep] at hfold
            simp [Bind.bind, Except.bind] at hfold
          | ok b =>
            rw [hstep] at hfold
            simp only [Bind.bind, Except.bind] at hfold
            have hpres1 : getId (if getId a u = none
                then setId a u (some (nid ++ "-anon_" ++ metaNameOf a u)) else a) m2
                = some s2 := by
              by_cases hu : getId a u = none
              · rw [if_pos hu]
                exact getId_preserved_setId a u m2 _ s2 hm2 hu
              · rw [if_neg hu]
                exact hm2
            exact ihl b a' hfold m2 s2 (ih _ u b hstep m2 s2 hpres1)
      exact aux (upstreamOf ar n) ar ar' h m s hm

lemma workflowOutputsInit_preserves (frames : List FrameM) (fuel : Nat) :
    ∀ (ts : List Nat) (ar : Arena) (ar' : Arena),
      workflowOutputsInit frames fuel ar ts = .ok ar' →
      ∀ m s, getId ar m = some s → getId ar' m = some s := by
  intro ts
  induction ts with
  | nil =>
    intro ar ar' h m s hm
    simp [workflowOutputsInit, List.foldlM, pure, Except.pure] at h
    subst h
    exact hm
  | cons t rest ih =>
    intro ar ar' h m s hm
    unfold workflowOutputsInit at h ih
    rw [List.foldlM_cons] at h
    cases hid : getId ar t with
    | some nid =>
      rw [hid] at h
      dsimp only at h
      cases hfi : fillInUpstreamNodes fuel ar t with
      | error e =>
        rw [hfi] at h
        simp [Bind.bind, Except.bind] at h
      | ok b =>
        rw [hfi] at h
        simp only [Bind.bind, Except.bind] at h
        exact ih b ar' h m s (fillIn_preserves fuel ar t b hfi m s hm)
    | none =>
      rw [hid] at h
      dsimp only at h
      cases hg : get_earliest_promise_name frames t with
      | none =>
        rw [hg] at h
        simp [Bind.bind, Except.bind] at h
      | some nid =>
        rw [hg] at h
        dsimp only at h
        cases hfi : fillInUpstreamNodes fuel (setId ar t (some nid)) t with
        | error e =>
          rw [hfi] at h
          simp [Bind.bind, Except.bind] at h
        | ok b =>
          rw [hfi] at h
          simp only [Bind.bind, Except.bind] at h
          have hp1 : getId (setId ar t (some nid)) m = some s :=
            getId_preserved_setId ar t m _ s hm hid
          exact ih b ar' h m s (fillIn_preserves fuel _ t b hfi m s hp1)

/-- C7: a node identifier, once set, is never overwritten — the build-mode
call's upstream resolution, the recursive back-fill, and the terminal-output
resolution in `WorkflowOutputs` each assign `_id` only when it is currently
`None`, so any node already carrying `some s` still carries exactly `some s`
after each of these operations. -/
theorem node_id_write_once (frames : List FrameM) (fuel : Nat) (ar : Arena)
    (ups : List Nat) (n : Nat) (ts : List Nat) (m : Nat) (s : String)
    (h : getId ar m = some s) :
    getId (resolveUpstreamIds frames ar ups) m = some s
    ∧ (∀ ar', fillInUpstreamNodes fuel ar n = .ok ar' → getId ar' m = some s)
    ∧ (∀ ar', workflowOutputsInit frames fuel ar ts = .ok ar' → getId ar' m = some s) :=
  ⟨resolveUpstreamIds_preserves frames ups ar m s h,
   fun ar' har' => fillIn_preserves fuel ar n ar' har' m s h,
   fun ar' har' => workflowOutputsInit_preserves frames fuel ts ar ar' har' m s h⟩

/-- C7 witness: in the concrete two-node arena where node 0 is already
identified as `"a"`, each of the three operations leaves that identifier
unchanged (the fill and init operations map `demoArena` to itself here, so the
concrete conclusions are stated on `demoArena`). -/
theorem node_id_write_once_witness :
    getId (resolveUpstreamIds [] demoArena [0, 1]) 0 = some "a"
    ∧ getId demoArena 0 = some "a"
    ∧ getId demoArena 0 = some "a" :=
  ⟨(node_id_write_once [] 5 demoArena [0, 1] 1 [1] 0 "a" rfl).1,
   (node_id_write_once [] 5 demoArena [0, 1] 1 [1] 0 "a" rfl).2.1 demoArena rfl,
   (node_id_write_once [] 5 demoArena [0, 1] 1 [1] 0 "a" rfl).2.2 demoArena rfl⟩

/-- The strict key order on bindings; used to identify sorted outputs. -/
def varLt (a b : BindingM) : Prop := a.var < b.var

instance : IsAntisymm BindingM varLt :=
  ⟨fun _ _ h1 h2 => absurd h2 (lt_asymm h1)⟩

lemma create_bindings_fst (kwargs : List (String × PyVal)) :
    ((create_bindings_for_inputs kwargs).1).map (fun b => b.var) = kwargs.map Prod.fst := by
  unfold create_bindings_for_inputs
  simp

lemma sortedBindings_sorted (kwargs : List (String × PyVal)) :
    List.Sorted varLe (sortedBindings kwargs) :=
  List.sorted_insertionSort varLe _

lemma sortedBindings_perm (kwargs : List (String × PyVal)) :
    (sortedBindings kwargs).Perm ((create_bindings_for_inputs kwargs).1) :=
  List.perm_insertionSort varLe _

lemma sortedBindings_sorted_strict (kwargs : List (String × PyVal))
    (hnd : (kwargs.map Prod.fst).Nodup) :
    List.Sorted varLt (sortedBindings kwargs) := by
  have hndv : ((sortedBindings kwargs).map (fun b => b.var)).Nodup := by
    have hp : ((sortedBindings kwargs).map (fun b => b.var)).Perm
        (((create_bindings_for_inputs kwargs).1).map (fun b => b.var)) :=
      (sortedBindings_perm kwargs).map _
    rw [create_bindings_fst] at hp
    exact hp.nodup_iff.mpr hnd
  have hne : List.Pairwise (fun a b : BindingM => a.var ≠ b.var) (sortedBindings kwargs) :=
    List.pairwise_map.mp hndv
  have hle : List.Pairwise varLe (sortedBindings kwargs) := sortedBindings_sorted kwargs
  exact (hle.and hne).imp (fun h => lt_of_le_of_ne h.1 h.2)

/-- C8: for every keyword-argument set, the Binding list stored on the
constructed node (`sorted(bindings, key=lambda b: b.var)`, stored by
`pythonTaskCall` as `sortedBindings kwargs`) is sorted by destination variable
name, and two invocations whose keyword arguments are permutations of each
other (distinct names, as Python kwargs guarantee) produce identical ordered
Binding lists. -/
theorem bindings_sorted_deterministic (k1 k2 : List (String × PyVal))
    (hperm : k1.Perm k2) (hnd : (k1.map Prod.fst).Nodup) :
    sortedBindings k1 = sortedBindings k2 ∧ List.Sorted varLe (sortedBindings k1) := by
  have hnd2 : (k2.map Prod.fst).Nodup := ((hperm.map Prod.fst).nodup_iff).mp hnd
  have hpermB : ((create_bindings_for_inputs k1).1).Perm ((create_bindings_for_inputs k2).1) := by
    unfold create_bindings_for_inputs
    exact hperm.map _
  have hp : (sortedBindings k1).Perm (sortedBindings k2) :=
    ((sortedBindings_perm k1).trans hpermB).trans (sortedBindings_perm k2).symm
  exact ⟨List.eq_of_perm_of_sorted hp (sortedBindings_sorted_strict k1 hnd)
      (sortedBindings_sorted_strict k2 hnd2),
    sortedBindings_sorted k1⟩

/-- C8 witness: the same two keyword arguments given in either order produce
the same sorted binding list. -/
theorem bindings_sorted_deterministic_witness :
    sortedBindings [("b", PyVal.other 0), ("a", PyVal.nodeOutput 0 "o")]
      = sortedBindings [("a", PyVal.nodeOutput 0 "o"), ("b", PyVal.other 0)]
    ∧ List.Sorted varLe
        (sortedBindings [("b", PyVal.other 0), ("a", PyVal.nodeOutput 0 "o")]) :=
  bindings_sorted_deterministic
    [("b", PyVal.other 0), ("a", PyVal.nodeOutput 0 "o")]
    [("a", PyVal.nodeOutput 0 "o"), ("b", PyVal.other 0)]
    (by decide) (by decide)

lemma dictSet_of_not_mem {β : Type} (m : List (String × β)) (k : String) (v : β)
    (h : k ∉ m.map Prod.fst) : dictSet m k v = m ++ [(k, v)] := by
  unfold dictSet
  rw [if_neg]
  intro hc
  obtain ⟨p, hp, he⟩ := List.any_eq_true.mp hc
  have hpe : p.1 = k := of_decide_eq_true he
  exact h (hpe ▸ List.mem_map.mpr ⟨p, hp, rfl⟩)

lemma pyDict_go {β : Type} :
    ∀ (l : List (String × β)) (acc : List (String × β)),
      (∀ k ∈ l.map Prod.fst, k ∉ acc.map Prod.fst) → (l.map Prod.fst).Nodup →
      l.foldl (fun m kv => dictSet m kv.1 kv.2) acc = acc ++ l := by
  intro l
  induction l with
  | nil => intro acc _ _; simp
  | cons kv rest ih =>
    intro acc hdisj hnd
    rw [List.map_cons] at hnd
    have hnd' := List.nodup_cons.mp hnd
    rw [List.foldl_cons, dictSet_of_not_mem acc kv.1 kv.2 (hdisj kv.1 (by simp))]
    rw [ih (acc ++ [(kv.1, kv.2)])
      (by
        intro k hk hmem
        rw [List.map_append] at hmem
        rcases List.mem_append.mp hmem with h1 | h2
        · exact hdisj k (by simp [hk]) h1
        · simp at h2
          subst h2
          exact hnd'.1 hk)
      hnd'.2]
    simp

lemma pyDict_eq_self {β : Type} (l : List (String × β)) (h : (l.map Prod.fst).Nodup) :
    pyDict l = l := by
  unfold pyDict
  rw [pyDict_go l [] (by simp) h]
  simp

lemma get_variable_map_go_ok :
    ∀ (items : List (String × PyType)) (acc : List (String × VariableM)),
      (∀ kv ∈ items, (SIMPLE_TYPE_LOOKUP_TABLE kv.2).isSome) →
      (∀ k ∈ items.map Prod.fst, k ∉ acc.map Prod.fst) →
      (items.map Prod.fst).Nodup →
      ∃ res, items.foldlM get_variable_map_step acc = .ok res
        ∧ res.map Prod.fst = acc.map Prod.fst ++ items.map Prod.fst := by
  intro items
  induction items with
  | nil =>
    intro acc _ _ _
    exact ⟨acc, by simp [List.foldlM, pure, Except.pure], by simp⟩
  | cons kv rest ih =>
    intro acc hsupp hdisj hnd
    rw [List.map_cons] at hnd
    have hnd' := List.nodup_cons.mp hnd
    obtain ⟨lt, hlt⟩ := Option.isSome_iff_exists.mp (hsupp kv (by simp))
    have hstep : get_variable_map_step acc kv = .ok (acc ++ [(kv.1, ⟨lt, kv.1⟩)]) := by
      unfold get_variable_map_step
      rw [hlt]
      dsimp only
      rw [dictSet_of_not_mem acc kv.1 _ (hdisj kv.1 (by simp))]
    rw [List.foldlM_cons, hstep]
    simp only [Bind.bind, Except.bind]
    obtain ⟨res, h1, h2⟩ := ih (acc ++ [(kv.1, ⟨lt, kv.1⟩)])
      (fun z hz => hsupp z (by simp [hz]))
      (by
        intro k hk hmem
        rw [List.map_append] at hmem
        rcases List.mem_append.mp hmem with h1 | h2
        · exact hdisj k (by simp [hk]) h1
        · simp at h2
          subst h2
          exact hnd'.1 hk)
      hnd'.2
    exact ⟨res, h1, by rw [h2]; simp⟩

lemma get_variable_map_go_error :
    ∀ (items : List (String × PyType)) (acc : List (String × VariableM)) (e : PyErr),
      items.foldlM get_variable_map_step acc = .error e →
      ∃ t, e = .unsupportedPythonType t := by
  intro items
  induction items with
  | nil => intro acc e h; simp [List.foldlM, pure, Except.pure] at h
  | cons kv rest ih =>
    intro acc e h
    rw [List.foldlM_cons] at h
    cases hs : get_variable_map_step acc kv with
    | error e2 =>
      rw [hs] at h
      simp [Bind.bind, Except.bind] at h
      subst h
      unfold get_variable_map_step at hs
      cases hl : SIMPLE_TYPE_LOOKUP_TABLE kv.2 with
      | none =>
        rw [hl] at hs
        simp at hs
        exact ⟨kv.2, hs.symm⟩
      | some lt =>
        rw [hl] at hs
        cases hs
    | ok b =>
      rw [hs] at h
      simp only [Bind.bind, Except.bind] at h
      exact ih b e h

/-- C9: with a `return` annotation present (`ann.ret = some r`), interface
construction fails with the arity error (`"Output length mismatch"`) exactly
when the declared output-name count differs from the return-type count (one
for a non-tuple annotation, one per element for a tuple); and when the counts
match — with the dict-unique names Python guarantees and supported types — it
produces a `TypedInterface` with one input Variable per non-return annotation
and one output Variable per declared output name, in order. -/
theorem iface_arity_exact (ann : TaskAnn) (r : RetAnn) (names : List String)
    (hr : ann.ret = some r) :
    (get_interface_from_task_info ann names = .error .outputLengthMismatch
      ↔ names.length ≠ (returnTypes r).length)
    ∧ (names.length = (returnTypes r).length →
        (ann.ins.map Prod.fst).Nodup → names.Nodup →
        (∀ kv ∈ ann.ins, (SIMPLE_TYPE_LOOKUP_TABLE kv.2).isSome) →
        (∀ t ∈ returnTypes r, (SIMPLE_TYPE_LOOKUP_TABLE t).isSome) →
        ∃ ti, get_interface_from_task_info ann names = .ok ti
          ∧ ti.inputs.map Prod.fst = ann.ins.map Prod.fst
          ∧ ti.outputs.map Prod.fst = names) := by
  have hred : get_interface_from_task_info ann names
      = if names.length ≠ (returnTypes r).length then .error .outputLengthMismatch
        else
          match get_variable_map ann.ins with
          | .error e => .error e
          | .ok inputs_map =>
            match get_variable_map_from_lists names (returnTypes r) with
            | .error e => .error e
            | .ok outputs_map => .ok ⟨inputs_map, outputs_map⟩ := by
    unfold get_interface_from_task_info
    rw [hr, if_neg (by simp)]
  constructor
  · constructor
    · intro h
      by_contra hlen
      rw [hred, if_neg (by omega)] at h
      cases h1 : get_variable_map ann.ins with
      | error e =>
        rw [h1] at h
        dsimp only at h
        obtain ⟨t, ht⟩ := get_variable_map_go_error ann.ins [] e h1
        subst ht
        simp at h
      | ok im =>
        rw [h1] at h
        dsimp only at h
        cases h2 : get_variable_map_from_lists names (returnTypes r) with
        | error e =>
          rw [h2] at h
          dsimp only at h
          unfold get_variable_map_from_lists at h2
          obtain ⟨t, ht⟩ := get_variable_map_go_error _ [] e h2
          subst ht
          simp at h
        | ok om =>
          rw [h2] at h
          simp at h
    · intro hlen
      rw [hred, if_pos hlen]
  · intro hlen hndins hndnames hsuppins hsupprt
    have hz : (names.zip (returnTypes r)).map Prod.fst = names :=
      List.map_fst_zip _ _ (by omega)
    have hpd : pyDict (names.zip (returnTypes r)) = names.zip (returnTypes r) :=
      pyDict_eq_self _ (by rw [hz]; exact hndnames)
    obtain ⟨res1, hr1, hk1⟩ := get_variable_map_go_ok ann.ins [] hsuppins (by simp) hndins
    obtain ⟨res2, hr2, hk2⟩ := get_variable_map_go_ok (names.zip (returnTypes r)) []
      (by
        intro kv hkv
        rcases kv with ⟨a, b⟩
        exact hsupprt b (List.of_mem_zip hkv).2)
      (by simp) (by rw [hz]; exact hndnames)
    refine ⟨⟨res1, res2⟩, ?_, ?_, ?_⟩
    · rw [hred, if_neg (by omega)]
      have hg1 : get_variable_map ann.ins = .ok res1 := hr1
      rw [hg1]
      dsimp only
      have hg2 : get_variable_map_from_lists names (returnTypes r) = .ok res2 := by
        unfold get_variable_map_from_lists
        rw [hpd]
        exact hr2
      rw [hg2]
    · simpa using hk1
    · show res2.map Prod.fst = names
      rw [hk2]
      simp [hz]

/-- C9 witness: one input `x : int`, one declared output `y` with a single
`int` return type — counts match, no arity error, and the interface has
exactly the input variable `x` and the output variable `y`. -/
theorem iface_arity_exact_witness :
    ∃ ti, get_interface_from_task_info
        ⟨[("x", PyType.int)], some (RetAnn.single PyType.int)⟩ ["y"] = .ok ti
      ∧ ti.inputs.map Prod.fst = [("x", PyType.int)].map Prod.fst
      ∧ ti.outputs.map Prod.fst = ["y"] :=
  (iface_arity_exact ⟨[("x", PyType.int)], some (RetAnn.single PyType.int)⟩
      (RetAnn.single PyType.int) ["y"] rfl).2 rfl (by decide) (by decide)
    (by decide) (by decide)

/-- C10: applying the task decorator while leaving `environment` at its `None`
default always fails before a task instance is returned — the container
builder unconditionally calls `environment.copy()` on it — and with an
explicitly supplied environment mapping a concrete task is constructed
successfully. -/
theorem task_requires_environment :
    (∀ (outputs : Option (List String)) (ann : TaskAnn),
        ∃ e, task_decorator outputs none ann = .error e)
    ∧ task_decorator (some ["o"]) (some [("K", "V")])
        ⟨[("x", PyType.int)], some (RetAnn.single PyType.int)⟩
      = .ok ⟨⟨[("x", ⟨.integer, "x"⟩)], [("o", ⟨.integer, "o"⟩)]⟩, some ["o"],
          ⟨[("K", "V")]⟩⟩ := by
  constructor
  · intro outputs ann
    have hcont : _get_container_definition none = .error PyErr.noneEnvironment := rfl
    cases hi : get_interface_from_task_info ann (outputs.getD []) with
    | error e =>
      refine ⟨e, ?_⟩
      unfold task_decorator
      rw [hi]
    | ok ti =>
      refine ⟨PyErr.noneEnvironment, ?_⟩
      unfold task_decorator
      rw [hi]
      dsimp only
      rw [hcont]
  · rfl
